import Mathlib

/-!
Shallow embedding of the DeploySense dashboard state logic: the repository
registry (`addRepository`, `removeRepository`, `updateRepositoryStatus`, the
delayed analysis callback), the review list, and the deployment pipeline
simulator (`triggerDeployment` with its interval tick closure,
`cancelDeployment`, `retryDeployment`).

Conventions of the embedding:
- JavaScript numbers that stay integral are `Int`; the interval closure's
  accumulated `progress` (a float fed by `Math.random() * 15 + 5`) is `ℚ`,
  with draws of `Math.random()` passed in as a parameter `d` with `0 ≤ d < 1`.
- `Math.floor` is `Int.floor`, and `Math.round` (round half up) is `jsRound`.
- `Date.now().toString()` identifiers are passed in as `String` parameters.
- `setTimeout`/`setInterval` callbacks become separate step functions
  (`analysisComplete`, `manualReviewComplete`, `tick`); the interval handle is
  the `DeployTimer` value, whose `cleared` flag models `clearInterval`.
-/

namespace DeploySense

inductive RepoStatus
  | reviewing | approved | rejected | deploying | deployed
deriving DecidableEq

inductive ReviewStatus
  | pending | completed | failed
deriving DecidableEq

inductive Stage
  | build | test | security | deploy | completed | failed
deriving DecidableEq

inductive Environment
  | staging | production
deriving DecidableEq

structure Repository where
  id : String
  name : String
  owner : String
  branch : String
  lastCommit : String
  qualityScore : Int
  status : RepoStatus
  pullRequests : Int
  url : String
  isAnalyzing : Bool
deriving DecidableEq

structure ReviewData where
  id : String
  repository : String
  pullRequest : String
  author : String
  qualityScore : Int
  suggestions : Int
  status : ReviewStatus
  timestamp : String
  repositoryId : String
deriving DecidableEq

structure Pipeline where
  id : String
  repository : String
  repositoryId : String
  branch : String
  stage : Stage
  progress : Int
  startTime : String
  duration : String
  qualityGate : Bool
  environment : Environment
deriving DecidableEq

/-- The closure state of the `setInterval` callback inside `triggerDeployment`:
the captured mutable locals `progress` and `currentStageIndex`, the ids it
closed over, and whether `clearInterval` has been called on the handle. -/
structure DeployTimer where
  pipelineId : String
  repoId : String
  progress : ℚ
  currentStageIndex : Nat
  cleared : Bool
deriving DecidableEq

/-- The three shared state lists held in the top-level UI state. -/
structure SysState where
  repositories : List Repository
  reviews : List ReviewData
  pipelines : List Pipeline
deriving DecidableEq

/-- JavaScript `Math.round`: round half toward positive infinity. -/
def jsRound (q : ℚ) : Int := ⌊q + 1 / 2⌋

/-- JavaScript `String.prototype.split` with a single-character separator,
on the character list: `"".split(c)` is `[""]`, separators at the ends
produce empty segments. -/
def splitOnChar (c : Char) : List Char → List (List Char)
  | [] => [[]]
  | a :: rest =>
    match splitOnChar c rest with
    | [] => [[a]]
    | x :: xs => if a = c then [] :: x :: xs else (a :: x) :: xs

/-- JavaScript `String.prototype.replace` with string pattern and empty
replacement: remove the first occurrence of `pat`, if any. -/
def removeFirstOccur (pat : List Char) : List Char → List Char
  | [] => []
  | a :: rest =>
    if pat.isPrefixOf (a :: rest) then (a :: rest).drop pat.length
    else a :: removeFirstOccur pat rest

/-- `repoUrl.replace('https://github.com/', '').split('/')` from
`addRepository`. -/
def parseRepoUrl (repoUrl : String) : List String :=
  (splitOnChar '/' (removeFirstOccur "https://github.com/".toList repoUrl.toList)).map
    (fun cs => String.mk cs)

/-- The `newRepo` object built by `addRepository`. -/
def mkNewRepository (owner name repoUrl newId : String) : Repository :=
  { id := newId
    name := name
    owner := owner
    branch := "main"
    lastCommit := "just now"
    qualityScore := 0
    status := .reviewing
    pullRequests := 0
    url := repoUrl
    isAnalyzing := true }

/-- `addRepository` (without the scheduled analysis callback, which is
`analysisComplete` below): parse the URL, reject unless the split yields
exactly two parts, reject duplicates by exact owner+name match, else append
the new repository.  Returns the `true`/`false` result together with the
state. -/
def addRepository (st : SysState) (repoUrl : String) (newId : String) :
    Bool × SysState :=
  match parseRepoUrl repoUrl with
  | [owner, name] =>
    if st.repositories.any (fun repo => repo.owner == owner && repo.name == name) then
      (false, st)
    else
      (true, { st with
        repositories := st.repositories ++ [mkNewRepository owner name repoUrl newId] })
  | _ => (false, st)

/-- The score classification `score >= 85 ? 'approved' : score >= 70 ?
'reviewing' : 'rejected'`, written inline both in the `addRepository`
analysis callback and in `triggerManualReview`. -/
def classifyScore (score : Int) : RepoStatus :=
  if 85 ≤ score then .approved else if 70 ≤ score then .reviewing else .rejected

/-- The `newReview` object built by the analysis callback of
`addRepository`; `d1`, `d3`, `d4` are the `Math.random()` draws for the
score, the PR label and the suggestion count. -/
def mkAnalysisReview (repoId name reviewId : String) (d1 d3 d4 : ℚ) : ReviewData :=
  { id := reviewId
    repository := name
    pullRequest := "#" ++ toString (⌊d3 * 200 + 1⌋ : Int)
    author := "ai-analysis"
    qualityScore := ⌊d1 * 40⌋ + 60
    suggestions := ⌊d4 * 10⌋ + 1
    status := .completed
    timestamp := "just now"
    repositoryId := repoId }

/-- The `setTimeout` callback scheduled by `addRepository`: apply the drawn
score, classification, pull-request count, clear `isAnalyzing`, and prepend
the synthesized review.  `d1`, `d2`, `d3`, `d4` are the four `Math.random()`
draws in source order (score, pull requests, PR label, suggestions). -/
def analysisComplete (st : SysState) (repoId name reviewId : String)
    (d1 d2 d3 d4 : ℚ) : SysState :=
  let analysisScore : Int := ⌊d1 * 40⌋ + 60
  { st with
    repositories := st.repositories.map (fun repo =>
      if repo.id = repoId then
        { repo with
          qualityScore := analysisScore
          status := classifyScore analysisScore
          pullRequests := ⌊d2 * 5⌋ + 1
          isAnalyzing := false }
      else repo)
    reviews := mkAnalysisReview repoId name reviewId d1 d3 d4 :: st.reviews }

/-- `removeRepository`: drop the repository with the given id and every
review whose `repositoryId` matches it.  Pipelines are not touched. -/
def removeRepository (st : SysState) (repoId : String) : SysState :=
  { st with
    repositories := st.repositories.filter (fun repo => ¬ repo.id = repoId)
    reviews := st.reviews.filter (fun review => ¬ review.repositoryId = repoId) }

/-- `updateRepositoryStatus`: unconditional status overwrite by id. -/
def updateRepositoryStatus (st : SysState) (repoId : String) (s : RepoStatus) :
    SysState :=
  { st with
    repositories := st.repositories.map (fun repo =>
      if repo.id = repoId then { repo with status := s } else repo) }

/-- The immediate part of `triggerManualReview` in `RepositoryManager`. -/
def triggerManualReview (st : SysState) (repoId : String) : SysState :=
  updateRepositoryStatus st repoId .reviewing

/-- The `setTimeout` callback of `triggerManualReview`: draw a new score
with the same formula as the connect analysis and apply the classified
status. -/
def manualReviewComplete (st : SysState) (repoId : String) (d : ℚ) : SysState :=
  let newScore : Int := ⌊d * 40⌋ + 60
  updateRepositoryStatus st repoId (classifyScore newScore)

/-- The `stages` array of the interval callback in `triggerDeployment`. -/
def stages : List Stage := [.build, .test, .security, .deploy, .completed]

/-- The `newPipeline` object built by `triggerDeployment`. -/
def mkPipeline (repo : Repository) (environment : Environment) (newId : String) :
    Pipeline :=
  { id := newId
    repository := repo.name
    repositoryId := repo.id
    branch := repo.branch
    stage := .build
    progress := 0
    startTime := "just now"
    duration := "0s"
    qualityGate := true
    environment := environment }

/-- The duration label recomputed each tick:
`Math.floor(progress / 10) + 'm ' + Math.floor((progress % 10) * 6) + 's'`. -/
def durationString (p : ℚ) : String :=
  toString (⌊p / 10⌋ : Int) ++ "m " ++
    toString (⌊(p - 10 * (⌊p / 10⌋ : ℚ)) * 6⌋ : Int) ++ "s"

/-- The `setPipelines` update performed by the interval callback: write the
stage at `idx`, the rounded progress and the duration label into the run
with the closed-over id. -/
def setPipelineTick (st : SysState) (pipelineId : String) (idx : Nat) (p : ℚ) :
    SysState :=
  { st with
    pipelines := st.pipelines.map (fun pl =>
      if pl.id = pipelineId then
        { pl with
          stage := stages.getD idx .build
          progress := jsRound p
          duration := durationString p }
      else pl) }

/-- `triggerDeployment`: reject below the quality threshold; otherwise
prepend the new run, set the repository status to `deploying`, and arm the
interval (returned as a fresh `DeployTimer`). -/
def triggerDeployment (st : SysState) (repo : Repository)
    (environment : Environment) (newId : String) :
    SysState × Option DeployTimer :=
  if repo.qualityScore < 85 then (st, none)
  else
    let st1 := { st with pipelines := mkPipeline repo environment newId :: st.pipelines }
    let st2 := updateRepositoryStatus st1 repo.id .deploying
    (st2, some
      { pipelineId := newId
        repoId := repo.id
        progress := 0
        currentStageIndex := 0
        cleared := false })

/-- One firing of the interval callback armed by `triggerDeployment`, with
`d` the `Math.random()` draw.  A cleared handle never fires again, so a
cleared timer leaves everything unchanged.  Otherwise: add the increment;
at `progress >= 100` cap at 100, jump to the last stage, mark the
repository `deployed` and clear the interval; below 100 recompute the stage
index as `Math.floor((progress / 100) * (stages.length - 1))`.  In both
cases write the run record. -/
def tick (st : SysState) (t : DeployTimer) (d : ℚ) : SysState × DeployTimer :=
  if t.cleared then (st, t)
  else
    let p := t.progress + (d * 15 + 5)
    if 100 ≤ p then
      let st1 := updateRepositoryStatus st t.repoId .deployed
      let st2 := setPipelineTick st1 t.pipelineId (stages.length - 1) 100
      (st2, { t with progress := 100, currentStageIndex := stages.length - 1, cleared := true })
    else
      let idx : Nat := (⌊p / 100 * ((stages.length : ℚ) - 1)⌋).toNat
      let st2 := setPipelineTick st t.pipelineId idx p
      (st2, { t with progress := p, currentStageIndex := idx })

/-- `cancelDeployment`: force any non-terminal run with the given id to
`failed`; the progress field is rewritten with its own value.  The interval
handle is not touched. -/
def cancelDeployment (st : SysState) (pipelineId : String) : SysState :=
  { st with
    pipelines := st.pipelines.map (fun p =>
      if p.id = pipelineId ∧ p.stage ≠ .completed ∧ p.stage ≠ .failed then
        { p with stage := .failed, progress := p.progress }
      else p) }

/-- `retryDeployment`: look up the run, look up its owning repository, and
re-invoke `triggerDeployment` with the run's environment. -/
def retryDeployment (st : SysState) (pipelineId : String) (newId : String) :
    SysState × Option DeployTimer :=
  match st.pipelines.find? (fun p => p.id == pipelineId) with
  | none => (st, none)
  | some pipeline =>
    match st.repositories.find? (fun r => r.id == pipeline.repositoryId) with
    | none => (st, none)
    | some repo => triggerDeployment st repo pipeline.environment newId

/-- Look up a repository by id, as `repositories.find(r => r.id === id)`. -/
def getRepo (st : SysState) (id : String) : Option Repository :=
  st.repositories.find? (fun r => r.id == id)

/-- Look up a pipeline run by id, as `pipelines.find(p => p.id === id)`. -/
def getPipeline (st : SysState) (id : String) : Option Pipeline :=
  st.pipelines.find? (fun p => p.id == id)

/-! ## Concrete states used by witnesses and counterexamples -/

def demoState : SysState := { repositories := [], reviews := [], pipelines := [] }

def repoC3 : Repository :=
  { id := "7"
    name := "api-service"
    owner := "mycompany"
    branch := "main"
    lastCommit := "2h ago"
    qualityScore := 80
    status := .reviewing
    pullRequests := 1
    url := "https://github.com/mycompany/api-service"
    isAnalyzing := false }

def stC3 : SysState := { repositories := [repoC3], reviews := [], pipelines := [] }

def repoC5 : Repository :=
  { id := "r1"
    name := "app"
    owner := "acme"
    branch := "main"
    lastCommit := "just now"
    qualityScore := 0
    status := .reviewing
    pullRequests := 0
    url := "https://github.com/acme/app"
    isAnalyzing := true }

def stC5 : SysState := { repositories := [repoC5], reviews := [], pipelines := [] }

def repoC4 : Repository :=
  { id := "r4"
    name := "dash"
    owner := "acme"
    branch := "main"
    lastCommit := "2h ago"
    qualityScore := 90
    status := .approved
    pullRequests := 2
    url := "https://github.com/acme/dash"
    isAnalyzing := false }

def stC4 : SysState := { repositories := [repoC4], reviews := [], pipelines := [] }

def stC4a : SysState := (triggerDeployment stC4 repoC4 .staging "p4").1

def timerC4 : DeployTimer :=
  { pipelineId := "p4", repoId := "r4", progress := 0, currentStageIndex := 0, cleared := false }

def plC4 : Pipeline := mkPipeline repoC4 .staging "p4"

def repoC8 : Repository :=
  { id := "3"
    name := "mobile-app"
    owner := "mycompany"
    branch := "develop"
    lastCommit := "1h ago"
    qualityScore := 74
    status := .reviewing
    pullRequests := 2
    url := "https://github.com/mycompany/mobile-app"
    isAnalyzing := false }

def plC8 : Pipeline :=
  { id := "3"
    repository := "mobile-app"
    repositoryId := "3"
    branch := "develop"
    stage := .failed
    progress := 45
    startTime := "1h ago"
    duration := "2m 15s"
    qualityGate := false
    environment := .staging }

def stC8 : SysState := { repositories := [repoC8], reviews := [], pipelines := [plC8] }

def repoC8w : Repository :=
  { id := "1"
    name := "react-dashboard"
    owner := "mycompany"
    branch := "main"
    lastCommit := "2h ago"
    qualityScore := 92
    status := .approved
    pullRequests := 3
    url := "https://github.com/mycompany/react-dashboard"
    isAnalyzing := false }

def plC8w : Pipeline :=
  { id := "10"
    repository := "react-dashboard"
    repositoryId := "1"
    branch := "main"
    stage := .failed
    progress := 45
    startTime := "1h ago"
    duration := "2m 15s"
    qualityGate := true
    environment := .production }

def stC8w : SysState := { repositories := [repoC8w], reviews := [], pipelines := [plC8w] }

def plC9 : Pipeline :=
  { id := "a"
    repository := "app"
    repositoryId := "r1"
    branch := "main"
    stage := .build
    progress := 13
    startTime := "just now"
    duration := "1m 15s"
    qualityGate := true
    environment := .staging }

def stC9 : SysState := { repositories := [], reviews := [], pipelines := [plC9] }

/-- Reachable-state bound used by C10: every recorded progress lies in
`[0, 100]` (it is an `Int` by construction, since every write goes through
`jsRound`). -/
@[reducible] def ProgressBounded (st : SysState) : Prop :=
  ∀ pl ∈ st.pipelines, 0 ≤ pl.progress ∧ pl.progress ≤ 100

def plC10 : Pipeline :=
  { id := "b"
    repository := "api-service"
    repositoryId := "2"
    branch := "feature/auth"
    stage := .deploy
    progress := 75
    startTime := "15m ago"
    duration := "3m 45s"
    qualityGate := true
    environment := .staging }

def stC10 : SysState := { repositories := [], reviews := [], pipelines := [plC10] }

def repoC1 : Repository :=
  { id := "r1"
    name := "app"
    owner := "acme"
    branch := "main"
    lastCommit := "2h ago"
    qualityScore := 90
    status := .approved
    pullRequests := 1
    url := "https://github.com/acme/app"
    isAnalyzing := false }

def stC1 : SysState := { repositories := [repoC1], reviews := [], pipelines := [] }

def timerC1 : DeployTimer :=
  { pipelineId := "p1", repoId := "r1", progress := 0, currentStageIndex := 0, cleared := false }

def stC1a : SysState := (triggerDeployment stC1 repoC1 .staging "p1").1

def stC1b : SysState := (tick stC1a timerC1 (1 / 2)).1

def timerC1b : DeployTimer := (tick stC1a timerC1 (1 / 2)).2

def stC1c : SysState := cancelDeployment stC1b "p1"

/-! ## Helper lemmas -/

/-- `find?` by key commutes with mapping a key-preserving function. -/
lemma find?_map_keyed {α : Type} (key : α → String) (f : α → α)
    (hk : ∀ a, key (f a) = key a) (k : String) :
    ∀ l : List α,
      (l.map f).find? (fun a => key a == k)
        = Option.map f (l.find? (fun a => key a == k))
  | [] => rfl
  | a :: l => by
    by_cases h : key a = k
    · simp [List.find?_cons, hk, h]
    · simp [List.find?_cons, hk, h, find?_map_keyed key f hk k l]

/-- `find?` by key after a keyed conditional update returns the updated
found element. -/
lemma getKeyed_update {α : Type} (key : α → String) (upd : α → α)
    (hk : ∀ a, key (upd a) = key a) (l : List α) (k : String) :
    (l.map (fun a => if key a = k then upd a else a)).find? (fun a => key a == k)
      = Option.map upd (l.find? (fun a => key a == k)) := by
  have hpres : ∀ a, key (if key a = k then upd a else a) = key a := by
    intro a
    by_cases h : key a = k <;> simp [h, hk]
  rw [find?_map_keyed key _ hpres k l]
  cases hfound : l.find? (fun a => key a == k) with
  | none => rfl
  | some a =>
    have ha : key a = k := by
      have := List.find?_some hfound
      simpa using this
    simp [Option.map, ha]

lemma jsRound_mono {a b : ℚ} (h : a ≤ b) : jsRound a ≤ jsRound b :=
  Int.floor_le_floor (by linarith)

lemma jsRound_nonneg {a : ℚ} (h : 0 ≤ a) : 0 ≤ jsRound a :=
  Int.le_floor.mpr (by push_cast; linarith)

lemma jsRound_hundred : jsRound 100 = 100 := by norm_num [jsRound]

/-- The stage index computed below 100 stays within the first four stages. -/
lemma stageIndex_le_three {p : ℚ} (h1 : p < 100) :
    (⌊p / 100 * ((stages.length : ℚ) - 1)⌋).toNat ≤ 3 := by
  have h4 : ((stages.length : ℚ) - 1) = 4 := by norm_num [stages]
  rw [h4]
  have hlt : ⌊p / 100 * 4⌋ < 4 := Int.floor_lt.mpr (by push_cast; nlinarith)
  omega

/-- On indices up to three, the extended stage list agrees with the
four-element display list. -/
lemma stages_getD_eq_short {i : Nat} (h : i ≤ 3) :
    stages.getD i .build
      = [Stage.build, Stage.test, Stage.security, Stage.deploy].getD i .build := by
  interval_cases i <;> rfl

/-- Shared helper: looking up the updated id after `updateRepositoryStatus`
yields the found repository with the status overwritten. -/
lemma getRepo_updateStatus (st : SysState) (id : String) (s : RepoStatus) :
    getRepo (updateRepositoryStatus st id s) id
      = Option.map (fun r => { r with status := s }) (getRepo st id) := by
  simp only [getRepo, updateRepositoryStatus]
  exact getKeyed_update (fun r => r.id) (fun r => { r with status := s })
    (fun a => rfl) st.repositories id

/-- Shared helper: looking up the ticked run after the interval's
`setPipelines` write yields the found run with stage, progress and duration
overwritten. -/
lemma getPipeline_setTick (st : SysState) (pid : String) (idx : Nat) (p : ℚ) :
    getPipeline (setPipelineTick st pid idx p) pid
      = Option.map (fun pl =>
          { pl with
            stage := stages.getD idx .build
            progress := jsRound p
            duration := durationString p }) (getPipeline st pid) := by
  simp only [getPipeline, setPipelineTick]
  exact getKeyed_update (fun pl => pl.id)
    (fun pl =>
      { pl with
        stage := stages.getD idx .build
        progress := jsRound p
        duration := durationString p })
    (fun a => rfl) st.pipelines pid

/-- Shared helper: triggering with a fresh run id does not disturb the
lookup of any other run. -/
lemma getPipeline_trigger_other (st : SysState) (repo : Repository)
    (environment : Environment) (newId pid : String) (hne : newId ≠ pid) :
    getPipeline (triggerDeployment st repo environment newId).1 pid
      = getPipeline st pid := by
  by_cases hq : repo.qualityScore < 85
  · simp [triggerDeployment, hq]
  · simp only [triggerDeployment, if_neg hq]
    show (mkPipeline repo environment newId :: st.pipelines).find? (fun p => p.id == pid)
      = getPipeline st pid
    rw [List.find?_cons_of_neg _ (by simp [mkPipeline, hne])]
    rfl

/-- Shared helper: the interval's `setPipelines` write, seen from an
arbitrary run lookup. -/
lemma getPipeline_setTick_other (st : SysState) (pid2 pid : String) (idx : Nat) (p : ℚ) :
    getPipeline (setPipelineTick st pid2 idx p) pid
      = Option.map (fun pl =>
          if pl.id = pid2 then
            { pl with
              stage := stages.getD idx .build
              progress := jsRound p
              duration := durationString p }
          else pl) (getPipeline st pid) := by
  simp only [getPipeline, setPipelineTick]
  exact find?_map_keyed (fun pl => pl.id)
    (fun pl =>
      if pl.id = pid2 then
        { pl with
          stage := stages.getD idx .build
          progress := jsRound p
          duration := durationString p }
      else pl)
    (fun a => by by_cases h : a.id = pid2 <;> simp [h]) pid st.pipelines

/-- Shared helper: `cancelDeployment`, seen from an arbitrary run lookup. -/
lemma getPipeline_cancel (st : SysState) (pid2 pid : String) :
    getPipeline (cancelDeployment st pid2) pid
      = Option.map (fun p =>
          if p.id = pid2 ∧ p.stage ≠ .completed ∧ p.stage ≠ .failed then
            { p with stage := .failed, progress := p.progress }
          else p) (getPipeline st pid) := by
  simp only [getPipeline, cancelDeployment]
  exact find?_map_keyed (fun p => p.id)
    (fun p =>
      if p.id = pid2 ∧ p.stage ≠ .completed ∧ p.stage ≠ .failed then
        { p with stage := .failed, progress := p.progress }
      else p)
    (fun a => by
      by_cases h : a.id = pid2 ∧ a.stage ≠ .completed ∧ a.stage ≠ .failed <;> simp [h])
    pid st.pipelines

lemma trigger_bounded (st : SysState) (hb : ProgressBounded st) (repo : Repository)
    (environment : Environment) (newId : String) :
    ProgressBounded (triggerDeployment st repo environment newId).1 := by
  by_cases hq : repo.qualityScore < 85
  · simpa [triggerDeployment, hq] using hb
  · intro pl2 hmem
    simp only [triggerDeployment, if_neg hq, updateRepositoryStatus] at hmem
    rcases List.mem_cons.mp hmem with h | h
    · subst h; exact ⟨le_refl 0, by norm_num [mkPipeline]⟩
    · exact hb pl2 h

lemma tick_bounded (st : SysState) (hb : ProgressBounded st) (t : DeployTimer) (d : ℚ)
    (hd : 0 ≤ d) (hp0 : 0 ≤ t.progress) :
    ProgressBounded (tick st t d).1 := by
  by_cases hcl : t.cleared = true
  · simpa [tick, hcl] using hb
  have hcl' : t.cleared = false := by
    cases hc : t.cleared
    · rfl
    · exact absurd hc hcl
  by_cases hge : 100 ≤ t.progress + (d * 15 + 5)
  · intro pl2 hmem
    simp only [tick, hcl', Bool.false_eq_true, if_false, if_pos hge,
      setPipelineTick, updateRepositoryStatus] at hmem
    rcases List.mem_map.mp hmem with ⟨a, ha, rfl⟩
    by_cases hid : a.id = t.pipelineId
    · simp [hid, jsRound_hundred]
    · simpa [hid] using hb a ha
  · intro pl2 hmem
    simp only [tick, hcl', Bool.false_eq_true, if_false, if_neg hge,
      setPipelineTick] at hmem
    rcases List.mem_map.mp hmem with ⟨a, ha, rfl⟩
    by_cases hid : a.id = t.pipelineId
    · have hkr0 : 0 ≤ jsRound (t.progress + (d * 15 + 5)) :=
        jsRound_nonneg (by linarith)
      have hkr1 : jsRound (t.progress + (d * 15 + 5)) ≤ 100 := by
        calc jsRound (t.progress + (d * 15 + 5)) ≤ jsRound 100 :=
            jsRound_mono (by linarith)
          _ = 100 := jsRound_hundred
      simp [hid]
      omega
    · simpa [hid] using hb a ha

lemma cancel_bounded (st : SysState) (hb : ProgressBounded st) (pid : String) :
    ProgressBounded (cancelDeployment st pid) := by
  intro pl2 hmem
  simp only [cancelDeployment] at hmem
  rcases List.mem_map.mp hmem with ⟨a, ha, rfl⟩
  by_cases h : a.id = pid ∧ a.stage ≠ .completed ∧ a.stage ≠ .failed <;>
    simpa [h] using hb a ha

lemma cancel_progress_eq (st : SysState) (pid : String) :
    (getPipeline (cancelDeployment st pid) pid).map Pipeline.progress
      = (getPipeline st pid).map Pipeline.progress := by
  rw [getPipeline_cancel st pid pid]
  cases getPipeline st pid with
  | none => rfl
  | some a =>
    by_cases h : a.id = pid ∧ a.stage ≠ .completed ∧ a.stage ≠ .failed <;> simp [h]

lemma retry_bounded (st : SysState) (hb : ProgressBounded st) (pid newId : String) :
    ProgressBounded (retryDeployment st pid newId).1 := by
  have hres : (retryDeployment st pid newId).1 = st ∨
      ∃ repo env,
        (retryDeployment st pid newId).1 = (triggerDeployment st repo env newId).1 := by
    unfold retryDeployment
    split
    · exact Or.inl rfl
    · split
      · exact Or.inl rfl
      · exact Or.inr ⟨_, _, rfl⟩
  rcases hres with h | ⟨repo, env, h⟩
  · rw [h]; exact hb
  · rw [h]; exact trigger_bounded st hb repo env newId

/-! ## The claims -/

/-- C1 (code bug): trigger a deployment on a repository with quality score
90, let the interval fire once with draw 0.5 (run now in stage `build`,
progress 13), then cancel.  The cancel does force the stage to `failed`
with progress frozen at 13 — but the interval handle is never cleared, so
when it fires again (draw 0) it overwrites the cancelled run: the stage
reverts from `failed` to `build` and progress rises from 13 to 18,
contradicting the claim that after cancellation no further tick ever
changes the run's stage or progress. -/
theorem cancel_then_tick_changes_run :
    (triggerDeployment stC1 repoC1 .staging "p1").2 = some timerC1 ∧
    (getPipeline stC1b "p1").map (fun p => (p.stage, p.progress))
      = some (Stage.build, 13) ∧
    (getPipeline stC1c "p1").map (fun p => (p.stage, p.progress))
      = some (Stage.failed, 13) ∧
    timerC1b.cleared = false ∧
    (getPipeline (tick stC1c timerC1b 0).1 "p1").map (fun p => (p.stage, p.progress))
      = some (Stage.build, 18) := by
  refine ⟨by decide, ?_, ?_, ?_, ?_⟩
  · norm_num [stC1b, stC1a, stC1, timerC1, repoC1, tick, triggerDeployment,
      updateRepositoryStatus, setPipelineTick, getPipeline, mkPipeline, stages,
      jsRound, List.find?]
  · have hcond1 : ¬ Stage.build = Stage.completed := by decide
    have hcond2 : ¬ Stage.build = Stage.failed := by decide
    norm_num [stC1c, stC1b, stC1a, stC1, timerC1, repoC1, tick, triggerDeployment,
      updateRepositoryStatus, setPipelineTick, cancelDeployment, getPipeline,
      mkPipeline, stages, jsRound, List.find?, hcond1, hcond2]
  · norm_num [timerC1b, timerC1, tick]
  · have hcond1 : ¬ Stage.build = Stage.completed := by decide
    have hcond2 : ¬ Stage.build = Stage.failed := by decide
    norm_num [stC1c, stC1b, stC1a, stC1, timerC1b, timerC1, repoC1, tick,
      triggerDeployment, updateRepositoryStatus, setPipelineTick, cancelDeployment,
      getPipeline, mkPipeline, stages, jsRound, List.find?, hcond1, hcond2]

/-- C2 counterexample: the URL `https://github.com/owner/` splits into the
two segments `["owner", ""]`, the second of which is empty, yet
`addRepository` accepts it and mutates the registry; the code checks only
the segment count, never that the segments are non-empty. -/
theorem addRepository_accepts_empty_segment :
    parseRepoUrl "https://github.com/owner/" = ["owner", ""] ∧
    (addRepository demoState "https://github.com/owner/" "id1").1 = true ∧
    (addRepository demoState "https://github.com/owner/" "id1").2.repositories
      ≠ demoState.repositories := by
  decide

/-- C2 amended: for every input string, connecting a repository succeeds
only when the URL, after removing the first occurrence of the fixed prefix
`https://github.com/` and splitting on `/`, yields exactly two segments
(which may be empty); any input whose split yields a different number of
segments is rejected and causes no mutation of the repository registry or
the review list. -/
theorem addRepository_segment_count (st : SysState) (repoUrl newId : String) :
    ((addRepository st repoUrl newId).1 = true → (parseRepoUrl repoUrl).length = 2) ∧
    ((parseRepoUrl repoUrl).length ≠ 2 → addRepository st repoUrl newId = (false, st)) := by
  rcases hp : parseRepoUrl repoUrl with _ | ⟨a, _ | ⟨b, _ | ⟨c, l⟩⟩⟩ <;>
    simp [addRepository, hp]

theorem addRepository_segment_count_witness :
    addRepository demoState "https://github.com/a/b/c" "id1" = (false, demoState) :=
  (addRepository_segment_count demoState "https://github.com/a/b/c" "id1").2 (by decide)

/-- C3: for every repository with quality score strictly below 85,
triggering deployment (for either environment) is rejected: the state is
returned unchanged (no pipeline run is created, the pipeline list is
unchanged, the repository's status and all other fields are unchanged) and
no interval is armed. -/
theorem triggerDeployment_below_threshold (st : SysState) (repo : Repository)
    (environment : Environment) (newId : String)
    (h : repo.qualityScore < 85) :
    triggerDeployment st repo environment newId = (st, none) := by
  simp [triggerDeployment, h]

theorem triggerDeployment_below_threshold_witness :
    triggerDeployment stC3 repoC3 .production "p9" = (stC3, none) :=
  triggerDeployment_below_threshold stC3 repoC3 .production "p9" (by decide)

/-- C4: a deployment trigger on a repository with quality score ≥ 85 creates
a run in stage `build` with progress 0 at the head of the pipeline list,
sets the repository status to `deploying` and arms the interval at progress
0.  Each tick adds the drawn increment `d * 15 + 5`, which lies in
`[5, 20)` for a draw `d ∈ [0, 1)`.  While the accumulated progress stays
below 100 the run is written with the stage at index
`floor(progress / 100 * (stages.length - 1))` of the ordered list
`[build, test, security, deploy]` (the index stays ≤ 3).  Once the
accumulated progress reaches 100 the run is written as `completed` with
progress capped at 100, the repository status becomes `deployed`, the
interval is cleared, and a cleared interval never fires again. -/
theorem deployment_trigger_and_tick (st : SysState) (repo : Repository)
    (environment : Environment) (newId : String) (t : DeployTimer) (pl : Pipeline)
    (d : ℚ)
    (hq : ¬ repo.qualityScore < 85)
    (hd0 : 0 ≤ d) (hd1 : d < 1)
    (ht : t.cleared = false)
    (hpl : getPipeline st t.pipelineId = some pl) :
    ((triggerDeployment st repo environment newId).1.pipelines.head?
        = some (mkPipeline repo environment newId) ∧
      (mkPipeline repo environment newId).stage = .build ∧
      (mkPipeline repo environment newId).progress = 0 ∧
      getRepo (triggerDeployment st repo environment newId).1 repo.id
        = Option.map (fun r => { r with status := .deploying }) (getRepo st repo.id) ∧
      (triggerDeployment st repo environment newId).2
        = some
            { pipelineId := newId
              repoId := repo.id
              progress := 0
              currentStageIndex := 0
              cleared := false }) ∧
    (5 ≤ d * 15 + 5 ∧ d * 15 + 5 < 20) ∧
    (t.progress + (d * 15 + 5) < 100 →
      (tick st t d).2.progress = t.progress + (d * 15 + 5) ∧
      (tick st t d).2.cleared = false ∧
      (⌊(t.progress + (d * 15 + 5)) / 100 * ((stages.length : ℚ) - 1)⌋).toNat ≤ 3 ∧
      getPipeline (tick st t d).1 t.pipelineId
        = some
            { pl with
              stage := [Stage.build, Stage.test, Stage.security, Stage.deploy].getD
                (⌊(t.progress + (d * 15 + 5)) / 100 * ((stages.length : ℚ) - 1)⌋).toNat
                .build
              progress := jsRound (t.progress + (d * 15 + 5))
              duration := durationString (t.progress + (d * 15 + 5)) }) ∧
    (100 ≤ t.progress + (d * 15 + 5) →
      getPipeline (tick st t d).1 t.pipelineId
        = some
            { pl with
              stage := .completed
              progress := 100
              duration := durationString 100 } ∧
      getRepo (tick st t d).1 t.repoId
        = Option.map (fun r => { r with status := .deployed }) (getRepo st t.repoId) ∧
      (tick st t d).2.cleared = true ∧
      (∀ st2 t2 d2, t2.cleared = true → tick st2 t2 d2 = (st2, t2))) := by
  refine ⟨⟨?_, rfl, rfl, ?_, ?_⟩, ⟨by linarith, by linarith⟩, ?_, ?_⟩
  · simp [triggerDeployment, hq, updateRepositoryStatus]
  · simp only [triggerDeployment, if_neg hq]
    exact getRepo_updateStatus _ repo.id .deploying
  · simp [triggerDeployment, hq]
  · intro hlt
    have hcond : ¬ 100 ≤ t.progress + (d * 15 + 5) := by linarith
    refine ⟨by simp [tick, ht, hcond], by simp [tick, ht, hcond],
      stageIndex_le_three hlt, ?_⟩
    have hupd := getPipeline_setTick st t.pipelineId
      ((⌊(t.progress + (d * 15 + 5)) / 100 * ((stages.length : ℚ) - 1)⌋).toNat)
      (t.progress + (d * 15 + 5))
    simp only [tick, ht, Bool.false_eq_true, if_false, if_neg hcond]
    rw [hupd, hpl]
    simp only [Option.map_some', stages_getD_eq_short (stageIndex_le_three hlt)]
  · intro hge
    refine ⟨?_, ?_, by simp [tick, ht, hge], fun st2 t2 d2 h2 => by simp [tick, h2]⟩
    · have hupd := getPipeline_setTick (updateRepositoryStatus st t.repoId .deployed)
        t.pipelineId (stages.length - 1) 100
      simp only [tick, ht, Bool.false_eq_true, if_false, if_pos hge]
      rw [hupd]
      rw [show getPipeline (updateRepositoryStatus st t.repoId .deployed) t.pipelineId
          = getPipeline st t.pipelineId from rfl]
      rw [hpl]
      simp only [Option.map_some', jsRound_hundred]
      rfl
    · simp only [tick, ht, Bool.false_eq_true, if_false, if_pos hge]
      rw [show getRepo
            (setPipelineTick (updateRepositoryStatus st t.repoId .deployed)
              t.pipelineId (stages.length - 1) 100) t.repoId
          = getRepo (updateRepositoryStatus st t.repoId .deployed) t.repoId from rfl]
      exact getRepo_updateStatus st t.repoId .deployed

theorem deployment_trigger_and_tick_witness :
    (triggerDeployment stC4a repoC4 .staging "p5").1.pipelines.head?
      = some (mkPipeline repoC4 .staging "p5") :=
  (deployment_trigger_and_tick stC4a repoC4 .staging "p5" timerC4 plC4 (1 / 2)
    (by decide) (by norm_num) (by norm_num) rfl (by decide)).1.1

/-- C5: the drawn quality score is `floor(random * 40) + 60`, an integer in
`[60, 100)`; the resulting status is `approved` at score ≥ 85, `reviewing`
at `70 ≤ score < 85` and `rejected` below 70, both for the connect-driven
analysis callback and for the manual review; for a connect-driven analysis
`isAnalyzing` is true immediately after the connect and false after the
delayed update applies. -/
theorem analysis_outcomes (st : SysState) (repoUrl newId repoId name reviewId : String)
    (d1 d2 d3 d4 e : ℚ) (hd0 : 0 ≤ d1) (hd1 : d1 < 1) :
    (60 ≤ ⌊d1 * 40⌋ + 60 ∧ ⌊d1 * 40⌋ + 60 < 100) ∧
    ((85 ≤ ⌊d1 * 40⌋ + 60 → classifyScore (⌊d1 * 40⌋ + 60) = .approved) ∧
     (70 ≤ ⌊d1 * 40⌋ + 60 ∧ ⌊d1 * 40⌋ + 60 < 85 →
        classifyScore (⌊d1 * 40⌋ + 60) = .reviewing) ∧
     (⌊d1 * 40⌋ + 60 < 70 → classifyScore (⌊d1 * 40⌋ + 60) = .rejected)) ∧
    (getRepo (analysisComplete st repoId name reviewId d1 d2 d3 d4) repoId
      = Option.map (fun r =>
          { r with
            qualityScore := ⌊d1 * 40⌋ + 60
            status := classifyScore (⌊d1 * 40⌋ + 60)
            pullRequests := ⌊d2 * 5⌋ + 1
            isAnalyzing := false }) (getRepo st repoId)) ∧
    (getRepo (manualReviewComplete st repoId e) repoId
      = Option.map (fun r => { r with status := classifyScore (⌊e * 40⌋ + 60) })
          (getRepo st repoId)) ∧
    ((addRepository st repoUrl newId).1 = true →
      ∃ owner nm,
        (addRepository st repoUrl newId).2.repositories
          = st.repositories ++ [mkNewRepository owner nm repoUrl newId] ∧
        (mkNewRepository owner nm repoUrl newId).isAnalyzing = true) := by
  refine ⟨⟨?_, ?_⟩, ⟨?_, ?_, ?_⟩, ?_, ?_, ?_⟩
  · have : (0 : Int) ≤ ⌊d1 * 40⌋ := Int.le_floor.mpr (by push_cast; linarith)
    omega
  · have : ⌊d1 * 40⌋ < 40 := Int.floor_lt.mpr (by push_cast; linarith)
    omega
  · intro hs; simp [classifyScore, hs]
  · rintro ⟨h70, h85⟩
    have : ¬ 85 ≤ ⌊d1 * 40⌋ + 60 := by omega
    simp [classifyScore, this, h70]
  · intro h70
    have h85 : ¬ 85 ≤ ⌊d1 * 40⌋ + 60 := by omega
    have h70' : ¬ 70 ≤ ⌊d1 * 40⌋ + 60 := by omega
    simp [classifyScore, h85, h70']
  · simp only [analysisComplete, getRepo]
    exact getKeyed_update (fun r => r.id)
      (fun repo =>
        { repo with
          qualityScore := ⌊d1 * 40⌋ + 60
          status := classifyScore (⌊d1 * 40⌋ + 60)
          pullRequests := ⌊d2 * 5⌋ + 1
          isAnalyzing := false })
      (fun a => rfl) st.repositories repoId
  · simp only [manualReviewComplete]
    exact getRepo_updateStatus st repoId _
  · intro hsucc
    rcases hp : parseRepoUrl repoUrl with _ | ⟨a, _ | ⟨b, _ | ⟨c, l⟩⟩⟩
    · simp [addRepository, hp] at hsucc
    · simp [addRepository, hp] at hsucc
    · by_cases hdup :
          st.repositories.any (fun repo => repo.owner == a && repo.name == b) = true
      · simp [addRepository, hp, hdup] at hsucc
      · refine ⟨a, b, ?_, rfl⟩
        simp [addRepository, hp, hdup]
    · simp [addRepository, hp] at hsucc

theorem analysis_outcomes_witness :
    getRepo (analysisComplete stC5 "r1" "app" "v1" (9 / 10) 0 0 0) "r1"
      = Option.map (fun r =>
          { r with
            qualityScore := ⌊(9 / 10 : ℚ) * 40⌋ + 60
            status := classifyScore (⌊(9 / 10 : ℚ) * 40⌋ + 60)
            pullRequests := ⌊(0 : ℚ) * 5⌋ + 1
            isAnalyzing := false }) (getRepo stC5 "r1") :=
  (analysis_outcomes stC5 "u" "x" "r1" "app" "v1" (9 / 10) 0 0 0 0
    (by norm_num) (by norm_num)).2.2.1

/-- C6: removing a repository deletes exactly the reviews whose
`repositoryId` matches it (and the repository itself), leaves every other
repository and review untouched, and does not delete or modify any pipeline
run. -/
theorem removeRepository_cascade (st : SysState) (repoId : String) :
    (removeRepository st repoId).pipelines = st.pipelines ∧
    (removeRepository st repoId).repositories
      = st.repositories.filter (fun r => ¬ r.id = repoId) ∧
    (removeRepository st repoId).reviews
      = st.reviews.filter (fun rv => ¬ rv.repositoryId = repoId) ∧
    (∀ rv : ReviewData,
      rv ∈ (removeRepository st repoId).reviews ↔ rv ∈ st.reviews ∧ ¬ rv.repositoryId = repoId) ∧
    (∀ r : Repository,
      r ∈ (removeRepository st repoId).repositories ↔ r ∈ st.repositories ∧ ¬ r.id = repoId) := by
  refine ⟨rfl, rfl, rfl, fun rv => ?_, fun r => ?_⟩ <;>
    simp [removeRepository, List.mem_filter]

/-- C7: each connect-driven analysis completion prepends exactly one review
record to the review list, with author `ai-analysis`, status `completed`,
quality score equal to the drawn analysis score, a PR label of `#` followed
by an integer in `[1, 200]`, and a suggestion count `floor(random*10)+1`
(an integer in `[1, 10]`); exactly one repository is mutated (the list
keeps its length and every repository with a different id is kept
untouched) and exactly one review is inserted. -/
theorem analysisComplete_review_insertion (st : SysState)
    (repoId name reviewId : String) (d1 d2 d3 d4 : ℚ)
    (h30 : 0 ≤ d3) (h31 : d3 < 1) (h40 : 0 ≤ d4) (h41 : d4 < 1) :
    (analysisComplete st repoId name reviewId d1 d2 d3 d4).reviews
      = mkAnalysisReview repoId name reviewId d1 d3 d4 :: st.reviews ∧
    (mkAnalysisReview repoId name reviewId d1 d3 d4).author = "ai-analysis" ∧
    (mkAnalysisReview repoId name reviewId d1 d3 d4).status = .completed ∧
    (mkAnalysisReview repoId name reviewId d1 d3 d4).qualityScore = ⌊d1 * 40⌋ + 60 ∧
    (mkAnalysisReview repoId name reviewId d1 d3 d4).pullRequest
      = "#" ++ toString (⌊d3 * 200 + 1⌋ : Int) ∧
    (1 ≤ ⌊d3 * 200 + 1⌋ ∧ (⌊d3 * 200 + 1⌋ : Int) ≤ 200) ∧
    (mkAnalysisReview repoId name reviewId d1 d3 d4).suggestions = ⌊d4 * 10⌋ + 1 ∧
    (1 ≤ ⌊d4 * 10⌋ + 1 ∧ (⌊d4 * 10⌋ : Int) + 1 ≤ 10) ∧
    (analysisComplete st repoId name reviewId d1 d2 d3 d4).repositories.length
      = st.repositories.length ∧
    (∀ r ∈ st.repositories, ¬ r.id = repoId →
      r ∈ (analysisComplete st repoId name reviewId d1 d2 d3 d4).repositories) := by
  refine ⟨rfl, rfl, rfl, rfl, rfl, ⟨?_, ?_⟩, rfl, ⟨?_, ?_⟩, ?_, ?_⟩
  · exact Int.le_floor.mpr (by push_cast; linarith)
  · have : ⌊d3 * 200 + 1⌋ < 201 := Int.floor_lt.mpr (by push_cast; linarith)
    omega
  · have : (0 : Int) ≤ ⌊d4 * 10⌋ := Int.le_floor.mpr (by push_cast; linarith)
    omega
  · have : ⌊d4 * 10⌋ < 10 := Int.floor_lt.mpr (by push_cast; linarith)
    omega
  · simp [analysisComplete]
  · intro r hr hne
    simp only [analysisComplete]
    exact List.mem_map.mpr ⟨r, hr, by simp [hne]⟩

theorem analysisComplete_review_insertion_witness :
    (analysisComplete stC5 "r1" "app" "v1" (9 / 10) 0 (1 / 2) (1 / 2)).reviews
      = mkAnalysisReview "r1" "app" "v1" (9 / 10) (1 / 2) (1 / 2) :: stC5.reviews :=
  (analysisComplete_review_insertion stC5 "r1" "app" "v1" (9 / 10) 0 (1 / 2) (1 / 2)
    (by norm_num) (by norm_num) (by norm_num) (by norm_num)).1

/-- C8 counterexample: this state mirrors the seeded data (`mobile-app`,
quality score 74, with a failed staging run).  The run is in stage `failed`
and its owning repository exists, yet retrying creates no new run at all:
`retryDeployment` funnels into `triggerDeployment`, whose quality gate
rejects the score 74, so the state is returned unchanged and no interval is
armed. -/
theorem retry_low_score_creates_no_run :
    (getPipeline stC8 "3").map (fun p => (p.stage, p.repositoryId))
      = some (Stage.failed, "3") ∧
    (getRepo stC8 "3").isSome = true ∧
    retryDeployment stC8 "3" "99" = (stC8, none) := by
  decide

/-- C8 amended: for every pipeline run in stage `failed` whose owning
repository still exists *and has quality score ≥ 85*, retrying re-invokes
the deployment trigger contract: a brand-new run with the supplied fresh
identifier is created at the head of the pipeline list, starting at stage
`build`, progress 0, in the same environment as the failed run, and the
old failed run is retained unmodified in the pipeline list. -/
theorem retryDeployment_spec (st : SysState) (pid newId : String)
    (pl : Pipeline) (repo : Repository)
    (hpl : getPipeline st pid = some pl)
    ( _hstage : pl.stage = .failed)
    (hrepo : getRepo st pl.repositoryId = some repo)
    (hq : ¬ repo.qualityScore < 85) :
    (retryDeployment st pid newId).1.pipelines
      = mkPipeline repo pl.environment newId :: st.pipelines ∧
    (mkPipeline repo pl.environment newId).id = newId ∧
    (mkPipeline repo pl.environment newId).stage = .build ∧
    (mkPipeline repo pl.environment newId).progress = 0 ∧
    (mkPipeline repo pl.environment newId).environment = pl.environment ∧
    pl ∈ (retryDeployment st pid newId).1.pipelines := by
  have hfind : st.pipelines.find? (fun p => p.id == pid) = some pl := hpl
  have hfind2 : st.repositories.find? (fun r => r.id == pl.repositoryId) = some repo := hrepo
  have h1 : (retryDeployment st pid newId).1.pipelines
      = mkPipeline repo pl.environment newId :: st.pipelines := by
    simp only [retryDeployment, hfind, hfind2, triggerDeployment, if_neg hq]
    rfl
  refine ⟨h1, rfl, rfl, rfl, rfl, ?_⟩
  rw [h1]
  exact List.mem_cons_of_mem _ (List.mem_of_find?_eq_some hfind)

theorem retryDeployment_spec_witness :
    (retryDeployment stC8w "10" "77").1.pipelines
      = mkPipeline repoC8w plC8w.environment "77" :: stC8w.pipelines :=
  (retryDeployment_spec stC8w "10" "77" plC8w repoC8w (by decide) (by decide)
    (by decide) (by decide)).1

/-- C9: for every pipeline run not in stage `failed`, the recorded progress
never decreases under any of the four operations.  Trigger and retry only
prepend a run with a fresh identifier; cancel rewrites the progress with
its own value; a tick either leaves the run alone, caps it at 100, or
writes the rounded closure progress, which dominates the previously
recorded value under the reachable-state invariant (recorded progress is at
most the rounded closure progress, and the closure progress of an armed
interval is below 100). -/
theorem progress_monotone (st : SysState) (pid : String) (pl : Pipeline)
    (hpl : getPipeline st pid = some pl)
    ( _hstage : pl.stage ≠ .failed) :
    (∀ repo environment newId, newId ≠ pid →
      (getPipeline (triggerDeployment st repo environment newId).1 pid).map
          Pipeline.progress
        = some pl.progress) ∧
    (∀ t d, 0 ≤ d → t.progress < 100 → pl.progress ≤ jsRound t.progress →
      ∃ pl2, getPipeline (tick st t d).1 pid = some pl2 ∧ pl.progress ≤ pl2.progress) ∧
    (∀ pid2,
      (getPipeline (cancelDeployment st pid2) pid).map Pipeline.progress
        = some pl.progress) ∧
    (∀ pid2 newId, newId ≠ pid →
      (getPipeline (retryDeployment st pid2 newId).1 pid).map Pipeline.progress
        = some pl.progress) := by
  refine ⟨?_, ?_, ?_, ?_⟩
  · intro repo environment newId hne
    rw [getPipeline_trigger_other st repo environment newId pid hne, hpl]
    rfl
  · intro t d hd hlt hrec
    by_cases hcl : t.cleared = true
    · exact ⟨pl, by simpa [tick, hcl] using hpl, le_refl _⟩
    have hcl' : t.cleared = false := by
      cases hc : t.cleared
      · rfl
      · exact absurd hc hcl
    by_cases hge : 100 ≤ t.progress + (d * 15 + 5)
    · refine ⟨if pl.id = t.pipelineId then
          { pl with
            stage := stages.getD (stages.length - 1) .build
            progress := jsRound 100
            duration := durationString 100 }
        else pl, ?_, ?_⟩
      · have hset := getPipeline_setTick_other
          (updateRepositoryStatus st t.repoId .deployed) t.pipelineId pid
          (stages.length - 1) 100
        have hsame : getPipeline (updateRepositoryStatus st t.repoId .deployed) pid
            = getPipeline st pid := rfl
        simp only [tick, hcl', Bool.false_eq_true, if_false, if_pos hge]
        rw [hset, hsame, hpl]
        rfl
      · have h100 : jsRound t.progress ≤ 100 := by
          calc jsRound t.progress ≤ jsRound 100 := jsRound_mono (le_of_lt hlt)
            _ = 100 := jsRound_hundred
        by_cases hid : pl.id = t.pipelineId
        · simp [hid, jsRound_hundred]
          omega
        · simp [hid]
    · refine ⟨if pl.id = t.pipelineId then
          { pl with
            stage := stages.getD
              ((⌊(t.progress + (d * 15 + 5)) / 100 * ((stages.length : ℚ) - 1)⌋).toNat)
              .build
            progress := jsRound (t.progress + (d * 15 + 5))
            duration := durationString (t.progress + (d * 15 + 5)) }
        else pl, ?_, ?_⟩
      · have hset := getPipeline_setTick_other st t.pipelineId pid
          ((⌊(t.progress + (d * 15 + 5)) / 100 * ((stages.length : ℚ) - 1)⌋).toNat)
          (t.progress + (d * 15 + 5))
        simp only [tick, hcl', Bool.false_eq_true, if_false, if_neg hge]
        rw [hset, hpl]
        rfl
      · have hmono : jsRound t.progress ≤ jsRound (t.progress + (d * 15 + 5)) :=
          jsRound_mono (by linarith)
        by_cases hid : pl.id = t.pipelineId
        · simp [hid]
          omega
        · simp [hid]
  · intro pid2
    rw [getPipeline_cancel st pid2 pid, hpl]
    by_cases h : pl.id = pid2 ∧ pl.stage ≠ .completed ∧ pl.stage ≠ .failed <;>
      simp [h]
  · intro pid2 newId hne
    have hres : (retryDeployment st pid2 newId).1 = st ∨
        ∃ repo env,
          (retryDeployment st pid2 newId).1 = (triggerDeployment st repo env newId).1 := by
      unfold retryDeployment
      split
      · exact Or.inl rfl
      · split
        · exact Or.inl rfl
        · exact Or.inr ⟨_, _, rfl⟩
    rcases hres with h | ⟨repo, env, h⟩
    · rw [h, hpl]; rfl
    · rw [h, getPipeline_trigger_other st repo env newId pid hne, hpl]; rfl

theorem progress_monotone_witness :
    (getPipeline (cancelDeployment stC9 "a") "a").map Pipeline.progress = some 13 :=
  (progress_monotone stC9 "a" plC9 (by decide) (by decide)).2.2.1 "a"

/-- C10: starting from any state whose recorded progresses lie in
`[0, 100]`, every operation keeps them there: a trigger creates its run
with progress 0, a tick writes the rounded closure progress capped at 100
(and never below 0 for a non-negative closure), cancel leaves every
progress unchanged, and retry reduces to a trigger.  The progress field is
an integer by the typing of the embedding, every tick write passing through
`jsRound`. -/
theorem progress_in_range (st : SysState) (hb : ProgressBounded st) :
    (∀ repo environment newId,
      (mkPipeline repo environment newId).progress = 0 ∧
      ProgressBounded (triggerDeployment st repo environment newId).1) ∧
    (∀ t d, 0 ≤ d → 0 ≤ t.progress → ProgressBounded (tick st t d).1) ∧
    (∀ pid,
      ProgressBounded (cancelDeployment st pid) ∧
      (getPipeline (cancelDeployment st pid) pid).map Pipeline.progress
        = (getPipeline st pid).map Pipeline.progress) ∧
    (∀ pid newId, ProgressBounded (retryDeployment st pid newId).1) :=
  ⟨fun repo environment newId => ⟨rfl, trigger_bounded st hb repo environment newId⟩,
   fun t d hd hp0 => tick_bounded st hb t d hd hp0,
   fun pid => ⟨cancel_bounded st hb pid, cancel_progress_eq st pid⟩,
   fun pid newId => retry_bounded st hb pid newId⟩

theorem progress_in_range_witness :
    ProgressBounded (cancelDeployment stC10 "b") :=
  ((progress_in_range stC10 (by decide)).2.2.1 "b").1

end DeploySense
